import Mathlib

/-!
Shallow embedding of the differential benchmarking pipeline in
`scripts/expand_matrix.py`, `scripts/run_pair.py` and
`scripts/render_report.py`.

Python floats that matter here are only ever compared, averaged over exact
inputs, or used as the `nan` / `inf` sentinels, so they are modelled by a
value type `FVal` with an exact rational payload for the finite case.
External collaborators (git, the filesystem scan, the benchmark subprocess)
are modelled as inputs: a side execution is represented by the `RunOutcome`
record that `run_command` returns (that function captures every command
failure into such a record instead of raising).
-/

/-- Python `str.strip()` (no argument): drop whitespace from both ends. -/
def py_trim (s : String) : String :=
  (((s.toList.dropWhile Char.isWhitespace).reverse.dropWhile
    Char.isWhitespace).reverse).asString

/-- Python `str.split()` (no argument) on a character list: split on
whitespace runs, producing no empty fields. `acc` holds the current field
reversed. -/
def py_split_ws_aux (acc : List Char) : List Char → List (List Char)
  | [] => if acc = [] then [] else [acc.reverse]
  | c :: cs =>
    if c.isWhitespace then
      (if acc = [] then py_split_ws_aux [] cs
       else acc.reverse :: py_split_ws_aux [] cs)
    else py_split_ws_aux (c :: acc) cs

/-- Python `str.split()` (no argument). -/
def py_split_ws (s : String) : List String :=
  (py_split_ws_aux [] s.toList).map List.asString

/-- Join character lists with a separator (Python `sep.join(fields)`). -/
def join_with (sep : List Char) : List (List Char) → List Char
  | [] => []
  | [x] => x
  | x :: xs => x ++ sep ++ join_with sep xs

/-- Python `str.replace(pat, rep)` over character lists, with a fuel
argument for structural recursion (the caller passes the text length,
which is always enough because a non-empty match consumes at least one
character). An empty pattern is left untouched (the scripts only replace
non-empty literals). Matches are found left to right and do not
overlap, as in Python. -/
def py_replace_aux (pat rep : List Char) : ℕ → List Char → List Char
  | _, [] => []
  | 0, l => l
  | fuel + 1, c :: cs =>
    if pat.isPrefixOf (c :: cs) ∧ pat ≠ [] then
      rep ++ py_replace_aux pat rep fuel ((c :: cs).drop pat.length)
    else c :: py_replace_aux pat rep fuel cs

/-- Python `str.replace(pat, rep)` for a non-empty pattern. -/
def py_replace (s pat rep : String) : String :=
  (py_replace_aux pat.toList rep.toList s.toList.length s.toList).asString

/-- Python `pat in s` over character lists: some suffix starts with the
pattern. -/
def occurs_aux (pat : List Char) : List Char → Bool
  | [] => pat.isPrefixOf []
  | c :: cs => pat.isPrefixOf (c :: cs) || occurs_aux pat cs

/-- Python substring test `pat in s`. -/
def occurs_in (s pat : String) : Bool :=
  occurs_aux pat.toList s.toList

/-- The rational one half, the Python literal `0.5` of
`render_report.classify` (written through `mkRat` so that proofs can
evaluate it by kernel reduction). -/
def half : ℚ := mkRat 1 2

/-- Model of the Python floats used by the pipeline: an exact rational
for finite values, plus the `inf`, `-inf` and `nan` sentinels. -/
inductive FVal where
  | fin (q : ℚ)
  | inf
  | neginf
  | nan
deriving DecidableEq, Repr

/-- `math.isfinite` style test used when filtering values for averaging. -/
def FVal.finitePart : FVal → Option ℚ
  | .fin q => some q
  | _ => none

/-- `render_report.classify(delta_pct, threshold)`: returns the status
string together with the is-regression flag, exactly as the Python code
does (lines 18-27 of render_report.py). -/
def classify (delta_pct : FVal) (threshold : ℚ) : String × Bool :=
  match delta_pct with
  | .nan => ("⚪ unknown", false)
  | .inf => ("⚪ unknown", false)
  | .neginf => ("⚪ unknown", false)
  | .fin q =>
    if q > threshold then ("🔴 regression", true)
    else if q < -half then ("🟢 improved", false)
    else if q > half then ("🟡 slight regression", false)
    else ("⚪ neutral", false)

/-- `render_report.metric_delta(base_value, head_value)` (lines 44-47):
division is exact here because the embedding uses rationals. -/
def metric_delta (base_value head_value : ℤ) : FVal :=
  if base_value = 0 then
    (if head_value = 0 then .fin 0 else .inf)
  else
    .fin (((head_value - base_value : ℚ) / (base_value : ℚ)) * 100)

/-- `render_report.avg(values)` (lines 50-54): mean of the finite values
only; `none` when no finite value remains. -/
def avg (values : List FVal) : Option ℚ :=
  let items := values.filterMap FVal.finitePart
  if items.isEmpty then none
  else some (items.sum / (items.length : ℚ))

/-- One `{"metric": ..., "value": ...}` item of a result artifact. -/
structure MetricItem where
  metric : String
  value : ℤ
deriving DecidableEq, Repr

/-- The per-case result artifact written by `run_pair.main` and consumed
by `render_report` (the ComparisonResult of the spec). -/
structure ComparisonResult where
  benchmark_name : String
  feature_name : String
  command : String
  base_total : ℤ
  head_total : ℤ
  delta : ℤ
  delta_pct : FVal
  head_metrics : List MetricItem
  base_metrics : List MetricItem
  head_missing : Bool
  base_missing : Bool
  head_missing_reason : Option String
  base_missing_reason : Option String
  head_error : Bool
  base_error : Bool
  head_error_code : Option ℤ
  base_error_code : Option ℤ
  head_error_reason : Option String
  base_error_reason : Option String
  head_error_output : Option String
  base_error_output : Option String
deriving DecidableEq, Repr

/-- Lookup in the dict comprehension `{item["metric"]: int(item["value"]) ...}`
with `.get(name, 0)`: a duplicated metric name keeps the last item (Python
dict insertion overwrites), absent names default to 0. -/
def metric_dict_get (items : List MetricItem) (name : String) : ℤ :=
  match items.reverse.find? (fun it => it.metric == name) with
  | some it => it.value
  | none => 0

/-- `render_report.collect_metric_deltas(entry)` (lines 57-66). The Python
code iterates over an (unordered) set union of the metric names; the
embedding uses first-occurrence order over base then head names, which is
one admissible ordering — downstream only the multiset matters (lengths,
sums, averages). -/
def collect_metric_deltas (entry : ComparisonResult) : List FVal :=
  let base_names := entry.base_metrics.map (fun it => it.metric)
  let head_names := entry.head_metrics.map (fun it => it.metric)
  let metric_names := (base_names ++ head_names).eraseDups
  metric_names.map (fun n =>
    metric_delta (metric_dict_get entry.base_metrics n)
      (metric_dict_get entry.head_metrics n))

/-- Accumulator state of the loop in `compute_feature_summary`. -/
structure Tally where
  improved : ℕ
  regressions : ℕ
  neutral : ℕ
  has_regressions : Bool
  bench_deltas : List FVal
  metric_deltas : List FVal
deriving DecidableEq, Repr

/-- One iteration of the loop in `compute_feature_summary`
(render_report.py lines 79-91): entries with a missing side are skipped
outright; otherwise the entry is classified and tallied and its deltas are
recorded. -/
def summary_step (threshold : ℚ) (entry : ComparisonResult) (acc : Tally) : Tally :=
  if entry.head_missing || entry.base_missing then acc
  else
    let sc := classify entry.delta_pct threshold
    let acc2 :=
      if sc.2 then
        { acc with regressions := acc.regressions + 1, has_regressions := true }
      else if List.isPrefixOf "🟢".toList sc.1.toList then
        { acc with improved := acc.improved + 1 }
      else
        { acc with neutral := acc.neutral + 1 }
    { acc2 with
        bench_deltas := entry.delta_pct :: acc2.bench_deltas,
        metric_deltas := collect_metric_deltas entry ++ acc2.metric_deltas }

/-- The whole loop of `compute_feature_summary`, processing entries in
order (the first entry of the list contributes the first recorded delta). -/
def summary_tally (threshold : ℚ) : List ComparisonResult → Tally
  | [] => ⟨0, 0, 0, false, [], []⟩
  | e :: es => summary_step threshold e (summary_tally threshold es)

/-- Return value of `compute_feature_summary` (its Python 6-tuple, with
named fields). -/
structure FeatureSummary where
  improved : ℕ
  regressions : ℕ
  neutral : ℕ
  avg_bench_delta : Option ℚ
  avg_metric_delta : Option ℚ
  has_regressions : Bool
deriving DecidableEq, Repr

/-- `render_report.compute_feature_summary(entries, threshold)`
(lines 69-100). -/
def compute_feature_summary (threshold : ℚ) (entries : List ComparisonResult) :
    FeatureSummary :=
  let t := summary_tally threshold entries
  ⟨t.improved, t.regressions, t.neutral, avg t.bench_deltas, avg t.metric_deltas,
    t.has_regressions⟩

/-- The selection of entries listed under "Skipped Benchmarks" in
`render_markdown` (render_report.py lines 276-280). -/
def missing_entries (results : List ComparisonResult) : List ComparisonResult :=
  results.filter (fun e => e.head_missing || e.base_missing)

/-- The `summary` object of a history entry. -/
structure RunSummaryCounts where
  improved : ℕ
  regressions : ℕ
  neutral : ℕ
deriving DecidableEq, Repr

/-- A persisted history entry (`latest_entry` shape in `render_markdown`,
render_report.py lines 302-313); `commit` is the `history_key`, with the
Python `item.get("commit") or ""` giving the empty string for an absent
commit. -/
structure HistoryEntry where
  commit : String
  run_at : String
  summary : RunSummaryCounts
  avg_bench_delta_pct : Option ℚ
  avg_metric_delta_pct : Option ℚ
  has_regressions : Bool
deriving DecidableEq, Repr

/-- The history-merge loop of `render_markdown` (render_report.py lines
321-328): skip entries with an empty or already-seen commit, append the
rest, and break as soon as the accumulated length reaches `max_history`
(the length test runs after the append, as in the Python `for` body).
`max_history` is a Python `int`, hence `ℤ`. -/
def merge_loop (max_history : ℤ) (seen : List String) (acc : List HistoryEntry) :
    List HistoryEntry → List HistoryEntry
  | [] => acc
  | item :: rest =>
    let key := item.commit
    if key = "" ∨ key ∈ seen then merge_loop max_history seen acc rest
    else
      let acc2 := acc ++ [item]
      if max_history ≤ (acc2.length : ℤ) then acc2
      else merge_loop max_history (key :: seen) acc2 rest

/-- The history merge of `render_markdown` (render_report.py lines
319-328): `new_history = [latest_entry]`, `seen = {commit of latest}`,
then the loop over the prior history. -/
def merge_history (latest : HistoryEntry) (history : List HistoryEntry)
    (max_history : ℤ) : List HistoryEntry :=
  merge_loop max_history [latest.commit] [latest] history

/-- Modelled from the spec wording of the history merge, for the
refinement comparison in claim C4: first-occurrence-wins deduplication by
commit over the new entry followed by the prior entries. -/
def dedup_by_commit (seen : List String) : List HistoryEntry → List HistoryEntry
  | [] => []
  | e :: es =>
    if e.commit ∈ seen then dedup_by_commit seen es
    else e :: dedup_by_commit (e.commit :: seen) es

/-- Modelled from the spec wording of the history merge, for the
refinement comparison in claim C4: dedup the new entry followed by the
prior entries, then truncate to at most `max_history` entries. -/
def claimed_merged_history (latest : HistoryEntry) (history : List HistoryEntry)
    (max_history : ℤ) : List HistoryEntry :=
  (dedup_by_commit [] (latest :: history)).take max_history.toNat

/-- One side of a differential run: the record returned by
`run_pair.run_command` (run_pair.py lines 130-167), with the defaults the
consumers read back through `dict.get`. `run_command` converts every
failure of the external command into such a record (it catches
`CalledProcessError`), so a side execution never aborts the protocol. -/
structure RunOutcome where
  total : ℤ := 0
  metrics : List MetricItem := []
  missing : Bool := false
  missing_reason : Option String := none
  error : Bool := false
  error_code : Option ℤ := none
  error_reason : Option String := none
  error_output : Option String := none
deriving DecidableEq, Repr

/-- `run_pair.normalize_metric_name(path)` (run_pair.py lines 45-49):
strip one trailing `.<digits>` suffix (`re.sub` with pattern dot digits
anchored at the end) from the posix path string. -/
def normalize_metric_name (path : String) : String :=
  let rev := path.toList.reverse
  let digits := rev.takeWhile Char.isDigit
  let rest := rev.dropWhile Char.isDigit
  if digits ≠ [] ∧ rest.head? = some '.' then ((rest.drop 1).reverse).asString
  else path

/-- Whether a path string still ends in a `.<digits>` suffix (the
condition under which `normalize_metric_name` rewrites it). -/
def has_numeric_suffix (path : String) : Bool :=
  let rev := path.toList.reverse
  let digits := rev.takeWhile Char.isDigit
  let rest := rev.dropWhile Char.isDigit
  decide (digits ≠ [] ∧ rest.head? = some '.')

/-- What `run_pair.main` produces for one case: the ordered checkout
trace, the result artifact, and the process exit status. -/
structure RunPairResult where
  checkouts : List String
  result : ComparisonResult
  exit_code : ℕ
deriving DecidableEq, Repr

/-- `run_pair.main` (run_pair.py lines 197-263) for one case, with the
two side executions supplied as `RunOutcome` inputs (see `RunOutcome`:
`run_command` is total over command failures). The checkout trace records
the three `git_checkout` calls of lines 197, 200 and 203 in program
order; the delta computation is lines 205-212 and the exit status is
lines 239-263. -/
def run_pair_main (command head_sha base_sha benchmark_name feature_name : String)
    (head base : RunOutcome) : RunPairResult :=
  let checkouts := [head_sha, base_sha, head_sha]
  let base_total := base.total
  let head_total := head.total
  let dp : ℤ × FVal :=
    if base.missing || head.missing || base.error || head.error then (0, .nan)
    else
      let delta := head_total - base_total
      (delta,
        if base_total ≠ 0 then .fin (((delta : ℚ) / (base_total : ℚ)) * 100)
        else .fin 0)
  let result : ComparisonResult :=
    { benchmark_name := benchmark_name,
      feature_name := feature_name,
      command := command,
      base_total := base_total,
      head_total := head_total,
      delta := dp.1,
      delta_pct := dp.2,
      head_metrics := head.metrics,
      base_metrics := base.metrics,
      head_missing := head.missing,
      base_missing := base.missing,
      head_missing_reason := head.missing_reason,
      base_missing_reason := base.missing_reason,
      head_error := head.error,
      base_error := base.error,
      head_error_code := head.error_code,
      base_error_code := base.error_code,
      head_error_reason := head.error_reason,
      base_error_reason := base.error_reason,
      head_error_output := head.error_output,
      base_error_output := base.error_output }
  let exit_code := if head.error || base.error then 1 else 0
  ⟨checkouts, result, exit_code⟩

/-- Python string truthiness fallback `a or b` for an optional string:
`none` and the empty string are falsy. Used for the `.get(...) or ...`
chains of expand_matrix.py. -/
def or_else_str (a : Option String) (b : String) : String :=
  match a with
  | some s => if s = "" then b else s
  | none => b

/-- The safe-character test of `shlex.quote`: ASCII alphanumerics,
underscore and the punctuation at, percent, plus, equals, colon, comma,
dot, slash and dash need no quoting. -/
def shlex_safe_char (c : Char) : Bool :=
  c.isAlphanum || c = '_' || c = '@' || c = '%' || c = '+' || c = '=' ||
    c = ':' || c = ',' || c = '.' || c = '/' || c = '-'

/-- `shlex.quote(s)`: empty string becomes a pair of single quotes; a
string of safe characters is returned unchanged; otherwise the string is
wrapped in single quotes with every embedded single quote replaced by the
quote-escape sequence. -/
def shlex_quote (s : String) : String :=
  if s = "" then "\x27\x27"
  else if s.toList.all shlex_safe_char then s
  else "\x27" ++ (py_replace s "\x27" "\x27\"\x27\"\x27") ++ "\x27"

/-- Join string fields with single spaces (Python `" ".join(fields)`). -/
def py_join_space (parts : List String) : String :=
  (join_with [' '] (parts.map String.toList)).asString

/-- Python `" ".join(command.split())`: collapse any whitespace runs to
single spaces and strip the ends. -/
def collapse_ws (s : String) : String :=
  py_join_space (py_split_ws s)

/-- A benchmark descriptor object (expand_matrix.py): the dict fields
read by `build_command` and `make_matrix`, each optional. -/
structure BenchmarkSpec where
  name : Option String := none
  command : Option String := none
  bench : Option String := none
  manifest_path : Option String := none
  package : Option String := none
  args : Option String := none
deriving DecidableEq, Repr

/-- A normalized feature set (`normalize_feature_sets` output). A
bare-string entry produces a dict without the `no_default_features` key;
since every consumer reads that key through `.get(..., False)`, it is
modelled as the field being `false`. -/
structure FeatureSet where
  name : String
  features : String
  no_default_features : Bool
deriving DecidableEq, Repr

/-- A raw feature-set JSON entry: a bare string, an object (with the
three fields `normalize_feature_sets` reads, each possibly absent), or a
value of any other type. -/
inductive FeatEntry where
  | str (s : String)
  | obj (name : Option String) (features : Option String)
      (no_default_features : Option Bool)
  | other
deriving DecidableEq, Repr

/-- A raw benchmark JSON entry: a bare string, an object, or a value of
any other type. -/
inductive BenchEntry where
  | str (s : String)
  | obj (spec : BenchmarkSpec)
  | other
deriving DecidableEq, Repr

/-- One entry of `normalize_feature_sets` (expand_matrix.py lines 29-42):
a bare string `s` becomes name `s`, features `s`; an object resolves
`name` through the truthiness chain `name or (features or "default")`,
`features` through `.get("features", "")` and the flag through
`bool(.get("no_default_features", False))`; anything else raises. -/
def normalize_feat_entry : FeatEntry → Except String FeatureSet
  | .str s => .ok ⟨s, s, false⟩
  | .obj nm ft nd =>
    .ok ⟨or_else_str nm (or_else_str ft "default"), ft.getD "", nd.getD false⟩
  | .other => .error "feature set entries must be objects or strings"

/-- The loop of `normalize_feature_sets` over all entries. -/
def normalize_feat_list : List FeatEntry → Except String (List FeatureSet)
  | [] => .ok []
  | e :: rest =>
    match normalize_feat_entry e with
    | .error msg => .error msg
    | .ok f =>
      match normalize_feat_list rest with
      | .error msg => .error msg
      | .ok fs => .ok (f :: fs)

/-- The implicit default feature set (expand_matrix.py line 44). -/
def default_feature_set : FeatureSet := ⟨"default", "", false⟩

/-- `expand_matrix.normalize_feature_sets(raw)` (lines 24-45): normalize
every entry, then substitute the single implicit default when the result
is empty. -/
def normalize_feature_sets (raw : List FeatEntry) : Except String (List FeatureSet) :=
  match normalize_feat_list raw with
  | .error msg => .error msg
  | .ok l => .ok (if l.isEmpty then [default_feature_set] else l)

/-- `expand_matrix.build_command(spec, feature_set, cargo_args)` (lines
48-87). The template branch runs when `spec.command` is truthy (present
and non-empty); placeholder substitution uses the literal tokens
`{features}` and `{no_default_features_flag}` (written with escaped
braces here), and the fallback `--features` / `--no-default-features`
appends test the original template for the placeholder. The structured
branch requires a truthy `bench` and assembles the fixed-order argument
list. Both branches append trimmed `cargo_args` when non-empty and
collapse whitespace at the end. -/
def build_command (spec : BenchmarkSpec) (feature_set : FeatureSet)
    (cargo_args : String) : Except String String :=
  let features := py_trim feature_set.features
  let no_default := feature_set.no_default_features
  let cmd0 := or_else_str spec.command ""
  let branch : Except String String :=
    if cmd0 ≠ "" then
      let c1 := py_replace cmd0 "\x7bfeatures\x7d" features
      let c2 := py_replace c1 "\x7bno_default_features_flag\x7d"
        (if no_default then "--no-default-features" else "")
      let c3 :=
        if ¬ (occurs_in cmd0 "\x7bfeatures\x7d") ∧ features ≠ "" then
          c2 ++ " --features " ++ shlex_quote features
        else c2
      let c4 :=
        if ¬ (occurs_in cmd0 "\x7bno_default_features_flag\x7d") ∧ no_default then
          c3 ++ " --no-default-features"
        else c3
      .ok c4
    else
      let bench := or_else_str spec.bench ""
      if bench = "" then .error "benchmark spec is missing bench"
      else
        let parts := ["cargo", "bench", "--bench", shlex_quote bench]
          ++ (match spec.manifest_path with
              | some mp => if mp ≠ "" then ["--manifest-path", shlex_quote mp] else []
              | none => [])
          ++ (match spec.package with
              | some p => if p ≠ "" then ["--package", shlex_quote p] else []
              | none => [])
          ++ (if features ≠ "" then ["--features", shlex_quote features] else [])
          ++ (if no_default then ["--no-default-features"] else [])
          ++ (match spec.args with
              | some a => if a ≠ "" then [a] else []
              | none => [])
        .ok (py_join_space parts)
  match branch with
  | .error msg => .error msg
  | .ok command =>
    let command2 :=
      if py_trim cargo_args ≠ "" then command ++ " " ++ py_trim cargo_args
      else command
    .ok (collapse_ws command2)

/-- One matrix case (expand_matrix.py lines 99-106). The Python `id` is
the first 10 hex characters of the SHA-1 of `id_seed`; the hash itself is
not translated (no claim concerns the digest), so the case carries the
seed `benchmark_name|feature_name|features` it is computed from. -/
structure Case where
  id_seed : String
  benchmark_name : String
  feature_name : String
  command : String
deriving DecidableEq, Repr

/-- The matrix payload (JSON key "include"; that word is a Lean keyword,
hence the field name `cases`). -/
structure BenchMatrix where
  cases : List Case
deriving DecidableEq, Repr

/-- The body of the inner loop of `make_matrix`: one case for a
benchmark and feature set. `bench_name` follows the truthiness chain
`bench.get("name") or bench.get("bench") or "benchmark"`. -/
def make_case (bench : BenchmarkSpec) (feature_set : FeatureSet)
    (cargo_args : String) : Except String Case :=
  let bench_name := or_else_str bench.name (or_else_str bench.bench "benchmark")
  match build_command bench feature_set cargo_args with
  | .error msg => .error msg
  | .ok command =>
    .ok ⟨bench_name ++ "|" ++ feature_set.name ++ "|" ++ feature_set.features,
      bench_name, feature_set.name, command⟩

/-- The inner loop of `make_matrix`: the cases of one benchmark across
all feature sets, in order. -/
def cases_for_bench (bench : BenchmarkSpec) (cargo_args : String) :
    List FeatureSet → Except String (List Case)
  | [] => .ok []
  | f :: rest =>
    match make_case bench f cargo_args with
    | .error msg => .error msg
    | .ok c =>
      match cases_for_bench bench cargo_args rest with
      | .error msg => .error msg
      | .ok cs => .ok (c :: cs)

/-- The outer loop of `make_matrix`: benchmark-major order. -/
def make_include (feature_sets : List FeatureSet) (cargo_args : String) :
    List BenchmarkSpec → Except String (List Case)
  | [] => .ok []
  | b :: rest =>
    match cases_for_bench b cargo_args feature_sets with
    | .error msg => .error msg
    | .ok cs =>
      match make_include feature_sets cargo_args rest with
      | .error msg => .error msg
      | .ok more => .ok (cs ++ more)

/-- `expand_matrix.make_matrix(benchmarks, feature_sets, cargo_args)`
(lines 90-107). -/
def make_matrix (benchmarks : List BenchmarkSpec) (feature_sets : List FeatureSet)
    (cargo_args : String) : Except String BenchMatrix :=
  match make_include feature_sets cargo_args benchmarks with
  | .error msg => .error msg
  | .ok inc => .ok ⟨inc⟩

/-- The stem of a `*.rs` file name (drop the 3-character extension). -/
def rs_stem (file_name : String) : String :=
  ((file_name.toList.reverse.drop 3).reverse).asString

/-- `expand_matrix.discover_benchmarks` (lines 11-21) over the sorted
list of `*.rs` file names found in the benches directory (the filesystem
glob is the external input): skip `mod.rs`, one spec per file with name
and bench equal to the stem. An absent benches directory is the empty
file list. -/
def discover_benchmarks (rs_files : List String) : List BenchmarkSpec :=
  (rs_files.filter (fun n => n ≠ "mod.rs")).map
    (fun n => { name := some (rs_stem n), bench := some (rs_stem n) })

/-- The benchmark-entry loop of `expand_matrix.main` (lines 127-134):
bare strings become name/bench specs, objects pass through, anything
else raises. -/
def parse_benchmarks : List BenchEntry → Except String (List BenchmarkSpec)
  | [] => .ok []
  | .str s :: rest =>
    (match parse_benchmarks rest with
     | .error msg => .error msg
     | .ok bs => .ok (({ name := some s, bench := some s } : BenchmarkSpec) :: bs))
  | .obj spec :: rest =>
    (match parse_benchmarks rest with
     | .error msg => .error msg
     | .ok bs => .ok (spec :: bs))
  | .other :: _ => .error "benchmark entries must be objects or strings"

/-- The fatal-configuration message of `expand_matrix.main` (lines
140-143). -/
def no_benchmarks_msg : String :=
  "No benchmarks configured. Provide benchmarks_json or enable auto_discover with benches/*.rs"

/-- `expand_matrix.main` (lines 110-150) after argument/JSON parsing:
parse the raw benchmark entries, fall back to auto-discovery when enabled
and the configured list is empty, fail fatally when the final list is
empty (before any matrix is produced), then normalize feature sets and
build the matrix. An `Except.error` result is a non-zero exit with no
matrix written; `Except.ok` is exit 0 with the matrix written. -/
def expand_matrix_main (benchmarks_raw : List BenchEntry) (auto_discover : Bool)
    (rs_files : List String) (feature_sets_raw : List FeatEntry)
    (cargo_args : String) : Except String BenchMatrix :=
  match parse_benchmarks benchmarks_raw with
  | .error msg => .error msg
  | .ok parsed =>
    let benchmarks := if auto_discover && parsed.isEmpty then discover_benchmarks rs_files
      else parsed
    if benchmarks.isEmpty then .error no_benchmarks_msg
    else
      match normalize_feature_sets feature_sets_raw with
      | .error msg => .error msg
      | .ok feature_sets => make_matrix benchmarks feature_sets cargo_args

/-! ## Sample values used by counterexamples and witnesses -/

/-- A side outcome with total 5 and no missing/error flag (the shape
`collect_metrics` returns for a successful run). -/
def head_outcome_five : RunOutcome := { total := 5 }

/-- A side outcome with total 0 and no missing/error flag. -/
def base_outcome_zero : RunOutcome := { total := 0 }

/-- A side outcome whose command failed (the error shape `run_command`
returns, with empty metrics). -/
def head_outcome_error : RunOutcome :=
  { total := 0, metrics := [], error := true, error_code := some 101,
    error_output := some "boom" }

/-- A history entry with the given commit and neutral payload. -/
def hist_entry (commit : String) : HistoryEntry :=
  ⟨commit, "", ⟨0, 0, 0⟩, none, none, false⟩

/-- A result whose head side errored while the base side ran: delta_pct
is the NaN sentinel, the errored side has empty metrics, and the base
side carries the metrics its run collected, as `run_pair.main` writes
into the artifact (lines 222-223). -/
def entry_error_sample : ComparisonResult :=
  { benchmark_name := "b", feature_name := "f", command := "c",
    base_total := 100, head_total := 0, delta := 0, delta_pct := .nan,
    head_metrics := [], base_metrics := [⟨"callgrind.out", 100⟩],
    head_missing := false, base_missing := false,
    head_missing_reason := none, base_missing_reason := none,
    head_error := true, base_error := false,
    head_error_code := some 101, base_error_code := none,
    head_error_reason := none, base_error_reason := none,
    head_error_output := some "boom", base_error_output := none }

/-- A result whose head side is missing (delta_pct is the NaN sentinel,
as `run_pair.main` produces for a missing side). -/
def entry_missing_sample : ComparisonResult :=
  { benchmark_name := "b", feature_name := "f", command := "c",
    base_total := 0, head_total := 0, delta := 0, delta_pct := .nan,
    head_metrics := [], base_metrics := [],
    head_missing := true, base_missing := false,
    head_missing_reason := some "bench target not found",
    base_missing_reason := none,
    head_error := false, base_error := false,
    head_error_code := none, base_error_code := none,
    head_error_reason := none, base_error_reason := none,
    head_error_output := none, base_error_output := none }

/-! ## Claims -/

/-- C1: for every case run by `run_pair.main`, with the two side
executions yielding any outcomes whatsoever (`run_command` turns every
command failure into a `missing` or `error` outcome record instead of
raising), the checkout trace is exactly head, base, head: the final
restoration checkout of the head revision is executed regardless of the
execution outcome on either side, so the shared checkout never remains
on the base revision. -/
theorem run_pair_restores_head_checkout
    (command head_sha base_sha benchmark_name feature_name : String)
    (head base : RunOutcome) :
    (run_pair_main command head_sha base_sha benchmark_name feature_name
        head base).checkouts = [head_sha, base_sha, head_sha]
    ∧ (run_pair_main command head_sha base_sha benchmark_name feature_name
        head base).checkouts.getLast? = some head_sha :=
  ⟨rfl, rfl⟩

/-- C2 counterexample: in a comparison where neither side is missing or
in error, `base_total = 0` and `head_total = 5`, the `delta_pct` of the
ComparisonResult is 0 — not the claimed +infinity — and it classifies as
neutral, not unknown (run_pair.py line 212 yields `0.0` whenever
`base_total` is falsy). -/
theorem zero_base_delta_pct_counterexample :
    head_outcome_five.missing = false ∧ head_outcome_five.error = false
    ∧ base_outcome_zero.missing = false ∧ base_outcome_zero.error = false
    ∧ head_outcome_five.total = 5 ∧ base_outcome_zero.total = 0
    ∧ (run_pair_main "cargo bench" "H" "B" "b" "f" head_outcome_five
        base_outcome_zero).result.delta_pct = FVal.fin 0
    ∧ FVal.fin 0 ≠ FVal.inf
    ∧ classify (FVal.fin 0) 3 = ("⚪ neutral", false) := by
  decide

/-- C2 (amended): in a ComparisonResult where neither side is missing or
in error, `base_total = 0` yields `delta_pct = 0` regardless of
`head_total` (never a raised computation fault); the
zero-if-zero-else-+infinity rule holds for the per-metric deltas of the
report renderer, where `metric_delta` maps base 0 and non-zero head to
+infinity, which the classifier flags as unknown. -/
theorem zero_base_delta_pct_amended
    (command head_sha base_sha bn fn : String) (head base : RunOutcome)
    (hm : head.missing = false) (bm : base.missing = false)
    (he : head.error = false) (be : base.error = false)
    (hb : base.total = 0) :
    (run_pair_main command head_sha base_sha bn fn head base).result.delta_pct
      = FVal.fin 0
    ∧ metric_delta 0 0 = FVal.fin 0
    ∧ (∀ h : ℤ, h ≠ 0 → metric_delta 0 h = FVal.inf)
    ∧ (∀ T : ℚ, classify FVal.inf T = ("⚪ unknown", false)) := by
  refine ⟨?_, by decide, ?_, fun T => rfl⟩
  · simp [run_pair_main, hm, bm, he, be, hb]
  · intro h hne
    simp [metric_delta, hne]

/-- Witness for C2 (amended) at concrete inputs. -/
theorem zero_base_delta_pct_amended_witness :
    (run_pair_main "cargo bench" "H" "B" "b" "f" head_outcome_five
        base_outcome_zero).result.delta_pct = FVal.fin 0
    ∧ metric_delta 0 5 = FVal.inf
    ∧ classify FVal.inf 3 = ("⚪ unknown", false) :=
  ⟨(zero_base_delta_pct_amended "cargo bench" "H" "B" "b" "f"
      head_outcome_five base_outcome_zero rfl rfl rfl rfl rfl).1,
   (zero_base_delta_pct_amended "cargo bench" "H" "B" "b" "f"
      head_outcome_five base_outcome_zero rfl rfl rfl rfl rfl).2.2.1 5 (by decide),
   (zero_base_delta_pct_amended "cargo bench" "H" "B" "b" "f"
      head_outcome_five base_outcome_zero rfl rfl rfl rfl rfl).2.2.2 3⟩

/-- C3: `classify` is a pure total function with the claimed precedence:
non-finite deltas map to unknown; then delta above the threshold maps to
regression; then delta below minus one half maps to improved; then delta
above one half maps to slight regression; everything else is neutral.
For every threshold above 0.50001 the boundary values -0.5 and 0.5
classify as neutral and 0.50001 as slight regression. -/
theorem classify_precedence (x T : ℚ) :
    classify FVal.nan T = ("⚪ unknown", false)
    ∧ classify FVal.inf T = ("⚪ unknown", false)
    ∧ classify FVal.neginf T = ("⚪ unknown", false)
    ∧ (x > T → classify (FVal.fin x) T = ("🔴 regression", true))
    ∧ (¬ x > T → x < -half → classify (FVal.fin x) T = ("🟢 improved", false))
    ∧ (¬ x > T → ¬ x < -half → x > half →
        classify (FVal.fin x) T = ("🟡 slight regression", false))
    ∧ (¬ x > T → ¬ x < -half → ¬ x > half →
        classify (FVal.fin x) T = ("⚪ neutral", false))
    ∧ (T > mkRat 50001 100000 →
        classify (FVal.fin (-half)) T = ("⚪ neutral", false)
        ∧ classify (FVal.fin half) T = ("⚪ neutral", false)
        ∧ classify (FVal.fin (mkRat 50001 100000)) T
            = ("🟡 slight regression", false)) := by
  have hhalf : half = 1 / 2 := by
    norm_num [half]
  have htt : mkRat 50001 100000 = 50001 / 100000 := by
    norm_num
  refine ⟨rfl, rfl, rfl, ?_, ?_, ?_, ?_, ?_⟩
  · intro h1
    simp [classify, h1]
  · intro h1 h2
    simp [classify, h1, h2]
  · intro h1 h2 h3
    simp [classify, h1, h2, h3]
  · intro h1 h2 h3
    simp [classify, h1, h2, h3]
  · intro hT
    rw [htt] at hT
    have hpos : (0 : ℚ) < half := by rw [hhalf]; norm_num
    refine ⟨?_, ?_, ?_⟩
    · have c1 : ¬ (-half > T) := by rw [hhalf] at *; linarith
      have c2 : ¬ (-half < -half) := by linarith
      have c3 : ¬ (-half > half) := by linarith
      simp [classify, c1, c2, c3]
    · have c1 : ¬ (half > T) := by rw [hhalf] at *; linarith
      have c2 : ¬ (half < -half) := by linarith
      have c3 : ¬ (half > half) := by linarith
      simp [classify, c1, c2, c3]
    · have c1 : ¬ (mkRat 50001 100000 > T) := by rw [htt]; linarith
      have c2 : ¬ (mkRat 50001 100000 < -half) := by
        rw [hhalf, htt] at *; linarith
      have c3 : mkRat 50001 100000 > half := by
        rw [hhalf, htt]; norm_num
      simp [classify, c1, c2, c3]

/-- Witness for C3 at concrete inputs. -/
theorem classify_precedence_witness :
    classify (FVal.fin (-half)) 1 = ("⚪ neutral", false)
    ∧ classify (FVal.fin half) 1 = ("⚪ neutral", false)
    ∧ classify (FVal.fin (mkRat 50001 100000)) 1
        = ("🟡 slight regression", false)
    ∧ classify (FVal.fin 2) 1 = ("🔴 regression", true) :=
  ⟨((classify_precedence 0 1).2.2.2.2.2.2.2 (by decide)).1,
   ((classify_precedence 0 1).2.2.2.2.2.2.2 (by decide)).2.1,
   ((classify_precedence 0 1).2.2.2.2.2.2.2 (by decide)).2.2,
   (classify_precedence 2 1).2.2.2.1 (by decide)⟩

/-- The merge loop of `render_markdown` agrees with
first-occurrence-wins dedup followed by truncation, as long as the
accumulator still has room (strictly below `max_history`) and no pending
entry has an empty commit. -/
theorem merge_loop_spec (max_history : ℤ) :
    ∀ (rest : List HistoryEntry) (seen : List String) (acc : List HistoryEntry),
      (∀ e ∈ rest, e.commit ≠ "") →
      (acc.length : ℤ) < max_history →
      merge_loop max_history seen acc rest
        = acc ++ (dedup_by_commit seen rest).take (max_history - acc.length).toNat := by
  intro rest
  induction rest with
  | nil =>
    intro seen acc hne hlt
    simp [merge_loop, dedup_by_commit]
  | cons item rest ih =>
    intro seen acc hne hlt
    have hcommit : item.commit ≠ "" := hne item (List.mem_cons_self item rest)
    have hne2 : ∀ e ∈ rest, e.commit ≠ "" := fun e he => hne e (List.mem_cons_of_mem item he)
    by_cases hseen : item.commit ∈ seen
    · have hcond : item.commit = "" ∨ item.commit ∈ seen := Or.inr hseen
      rw [merge_loop]
      simp only [hcond, if_true, dedup_by_commit, if_pos hseen]
      exact ih seen acc hne2 hlt
    · have hcond : ¬ (item.commit = "" ∨ item.commit ∈ seen) := by
        intro h
        rcases h with h | h
        · exact hcommit h
        · exact hseen h
      rw [merge_loop]
      simp only [hcond, if_false, dedup_by_commit, if_neg hseen]
      have hk : ∃ k : ℕ, (max_history - (acc.length : ℤ)).toNat = k + 1 := by
        refine ⟨(max_history - (acc.length : ℤ)).toNat - 1, ?_⟩
        omega
      obtain ⟨k, hk⟩ := hk
      rw [hk]
      by_cases hfull : max_history ≤ ((acc ++ [item]).length : ℤ)
      · simp only [if_pos hfull]
        have hzero : k = 0 := by
          simp only [List.length_append, List.length_cons, List.length_nil] at hfull
          omega
        subst hzero
        simp [List.take]
      · simp only [if_neg hfull]
        rw [ih (item.commit :: seen) (acc ++ [item]) hne2 (by omega)]
        have hlen : (max_history - ((acc ++ [item]).length : ℤ)).toNat = k := by
          simp only [List.length_append, List.length_cons, List.length_nil]
          omega
        rw [hlen]
        simp [List.take]

/-- C4 counterexample: with `max_history = 1` the merge of a new entry
into a one-entry history keeps 2 entries, exceeding the claimed cap (the
length test of the loop runs only after an append); and a prior entry
with an empty commit is dropped even though no earlier entry duplicates
it, contradicting the claimed dedup-then-truncate description. -/
theorem history_merge_counterexample :
    (merge_history (hist_entry "ddd") [hist_entry "aaa"] 1).length = 2
    ∧ ¬ ((merge_history (hist_entry "ddd") [hist_entry "aaa"] 1).length ≤ 1)
    ∧ merge_history (hist_entry "ddd") [hist_entry ""] 5 = [hist_entry "ddd"]
    ∧ claimed_merged_history (hist_entry "ddd") [hist_entry ""] 5
        = [hist_entry "ddd", hist_entry ""]
    ∧ merge_history (hist_entry "ddd") [hist_entry ""] 5
        ≠ claimed_merged_history (hist_entry "ddd") [hist_entry ""] 5 := by
  decide

/-- C4 (amended): provided `max_history ≥ 2` and every prior entry has a
non-empty commit, the merged history equals the new entry followed by
the prior entries deduplicated by commit (first, i.e. newest, occurrence
wins) and truncated to at most `max_history` entries; with
`max_history ≤ 1` the result can exceed the cap by one, and prior
entries with empty commits are always dropped. -/
theorem merge_history_amended (latest : HistoryEntry) (history : List HistoryEntry)
    (max_history : ℤ) (hmax : 2 ≤ max_history)
    (hne : ∀ e ∈ history, e.commit ≠ "") :
    merge_history latest history max_history
      = claimed_merged_history latest history max_history := by
  have h1 : ((([latest] : List HistoryEntry)).length : ℤ) < max_history := by
    simp only [List.length_cons, List.length_nil]
    omega
  rw [merge_history, merge_loop_spec max_history history [latest.commit] [latest] hne h1,
    claimed_merged_history]
  have h2 : dedup_by_commit [] (latest :: history)
      = latest :: dedup_by_commit [latest.commit] history := by
    simp [dedup_by_commit]
  rw [h2]
  have h3 : max_history.toNat
      = (max_history - (([latest] : List HistoryEntry).length : ℤ)).toNat + 1 := by
    simp only [List.length_cons, List.length_nil]
    omega
  rw [h3]
  simp [List.take]

/-- Witness for C4 (amended) at the example of the claim:
merging commit ddd into aaa, bbb, ccc with cap 2. -/
theorem merge_history_amended_witness :
    merge_history (hist_entry "ddd")
        [hist_entry "aaa", hist_entry "bbb", hist_entry "ccc"] 2
      = [hist_entry "ddd", hist_entry "aaa"] := by
  have h := merge_history_amended (hist_entry "ddd")
    [hist_entry "aaa", hist_entry "bbb", hist_entry "ccc"] 2
    (by decide) (by decide)
  rw [h]
  decide

/-- C5 counterexample: with benchmarks a single bare string bench_a,
feature sets a single bare string default and auto-discovery disabled,
the matrix has exactly one case, but its command is
cargo bench --bench bench_a --features default — not the claimed
cargo bench --bench bench_a: the bare-string feature entry normalizes to
features equal to its name (expand_matrix.py line 31), which is
non-empty and therefore appended (line 76). -/
theorem scenario_a_counterexample :
    expand_matrix_main [BenchEntry.str "bench_a"] false []
        [FeatEntry.str "default"] ""
      = Except.ok ⟨[⟨"bench_a|default|default", "bench_a", "default",
          "cargo bench --bench bench_a --features default"⟩]⟩
    ∧ "cargo bench --bench bench_a --features default"
        ≠ "cargo bench --bench bench_a" :=
  ⟨rfl, by decide⟩

/-- C5 (amended): with benchmarks a single bare string bench_a, feature
sets a single bare string default and auto-discovery disabled, the
matrix has exactly one case, whose command is
cargo bench --bench bench_a --features default (the bare-string feature
set contributes its name as a non-empty feature list; the command
without the features flag arises from an empty feature-set list
instead). -/
theorem scenario_a_amended :
    (expand_matrix_main [BenchEntry.str "bench_a"] false []
        [FeatEntry.str "default"] "").map (fun m => m.cases.map (fun c => c.command))
      = Except.ok ["cargo bench --bench bench_a --features default"]
    ∧ (expand_matrix_main [BenchEntry.str "bench_a"] false [] [] "").map
        (fun m => m.cases.map (fun c => c.command))
      = Except.ok ["cargo bench --bench bench_a"] :=
  ⟨rfl, rfl⟩

/-- C6 counterexample: metric-name normalization strips only one
trailing dot-digits suffix per application, so it is not idempotent: on
callgrind.out.1.2 one application yields callgrind.out.1 and a second
application yields callgrind.out. -/
theorem normalize_metric_name_counterexample :
    normalize_metric_name "callgrind.out.1.2" = "callgrind.out.1"
    ∧ normalize_metric_name (normalize_metric_name "callgrind.out.1.2")
        = "callgrind.out"
    ∧ normalize_metric_name (normalize_metric_name "callgrind.out.1.2")
        ≠ normalize_metric_name "callgrind.out.1.2" := by
  decide

/-- Normalization leaves a path unchanged when it has no trailing
dot-digits suffix. -/
theorem normalize_metric_name_noop (s : String)
    (h : has_numeric_suffix s = false) :
    normalize_metric_name s = s := by
  simp only [has_numeric_suffix, decide_eq_false_iff_not] at h
  simp only [normalize_metric_name, if_neg h]

/-- C6 (amended): normalization maps both callgrind.out.12345 and
callgrind.out.987 to the key callgrind.out, and it is idempotent on
every path whose normalized form does not itself still end in a
dot-digits suffix (which covers the usual single process-id decoration);
it strips only one suffix per application, so full idempotence fails on
paths with stacked numeric suffixes. -/
theorem normalize_metric_name_amended (p : String)
    (h : has_numeric_suffix (normalize_metric_name p) = false) :
    normalize_metric_name (normalize_metric_name p) = normalize_metric_name p
    ∧ normalize_metric_name "callgrind.out.12345" = "callgrind.out"
    ∧ normalize_metric_name "callgrind.out.987" = "callgrind.out" :=
  ⟨normalize_metric_name_noop (normalize_metric_name p) h, by decide, by decide⟩

/-- Witness for C6 (amended) at a concrete path. -/
theorem normalize_metric_name_amended_witness :
    normalize_metric_name (normalize_metric_name "callgrind.out.12345")
      = normalize_metric_name "callgrind.out.12345"
    ∧ normalize_metric_name "callgrind.out.12345" = "callgrind.out" :=
  ⟨(normalize_metric_name_amended "callgrind.out.12345" (by decide)).1,
   (normalize_metric_name_amended "callgrind.out.12345" (by decide)).2.1⟩

/-- The tally loop of `compute_feature_summary` ignores entries with a
missing side: tallying a list equals tallying its restriction to
entries with neither side missing. -/
theorem summary_tally_filter (t : ℚ) : ∀ es : List ComparisonResult,
    summary_tally t es
      = summary_tally t (es.filter (fun e => !(e.head_missing || e.base_missing))) := by
  intro es
  induction es with
  | nil => rfl
  | cons e es ih =>
    show summary_step t e (summary_tally t es) = _
    by_cases h : (e.head_missing || e.base_missing) = true
    · have hstep : summary_step t e (summary_tally t es) = summary_tally t es := by
        rw [summary_step, if_pos h]
      rw [hstep, ih, List.filter_cons]
      simp [h]
    · have hb : (e.head_missing || e.base_missing) = false :=
        Bool.not_eq_true _ |>.mp h
      rw [List.filter_cons]
      simp only [hb, Bool.not_false, if_pos]
      show _ = summary_step t e (summary_tally t (es.filter _))
      rw [ih]

/-- C7: results with either side missing are excluded from the group
summary (counts and both delta averages): the summary of a list equals
the summary of the list with missing-sided entries filtered out; every
such entry is listed in the skipped selection of the report; and
averages are taken over finite values only, with an empty set of finite
values yielding no average rather than zero. -/
theorem missing_excluded (threshold : ℚ) (results : List ComparisonResult) :
    compute_feature_summary threshold results
      = compute_feature_summary threshold
          (results.filter (fun e => !(e.head_missing || e.base_missing)))
    ∧ (∀ e, e ∈ results → (e.head_missing || e.base_missing) = true →
        e ∈ missing_entries results)
    ∧ (∀ values : List FVal, values.filterMap FVal.finitePart = [] →
        avg values = none)
    ∧ avg [] = none := by
  refine ⟨?_, ?_, ?_, rfl⟩
  · simp only [compute_feature_summary]
    rw [summary_tally_filter]
  · intro e he hm
    simp only [missing_entries, List.mem_filter]
    exact ⟨he, hm⟩
  · intro values hv
    simp [avg, hv]

/-- Witness for C7 at a concrete missing-sided result. -/
theorem missing_excluded_witness :
    compute_feature_summary 3 [entry_missing_sample] = compute_feature_summary 3 []
    ∧ entry_missing_sample ∈ missing_entries [entry_missing_sample]
    ∧ avg [FVal.nan] = none := by
  have h := missing_excluded 3 [entry_missing_sample]
  exact ⟨h.1.trans (by decide),
    h.2.1 entry_missing_sample (by decide) (by decide),
    h.2.2.1 [FVal.nan] (by decide)⟩

/-- C8: the per-case differential run exits non-zero exactly when at
least one side ended in error; since this holds for all outcomes, a side
that is merely missing (with neither side in error) never yields a
non-zero status. -/
theorem exit_nonzero_iff_error (command head_sha base_sha bn fn : String)
    (head base : RunOutcome) :
    ((run_pair_main command head_sha base_sha bn fn head base).exit_code ≠ 0)
      ↔ (head.error = true ∨ base.error = true) := by
  simp only [run_pair_main]
  cases hh : head.error <;> cases hb : base.error <;> simp

/-- `normalize_feature_sets` never returns an empty list: an empty
normalized list is replaced by the implicit default feature set. -/
theorem normalize_feature_sets_ne_nil (raw : List FeatEntry)
    (l : List FeatureSet) (h : normalize_feature_sets raw = .ok l) : l ≠ [] := by
  rw [normalize_feature_sets] at h
  cases hl : normalize_feat_list raw with
  | error msg => rw [hl] at h; exact absurd h (by simp)
  | ok l0 =>
    rw [hl] at h
    by_cases he : l0.isEmpty
    · simp [he] at h
      subst h
      simp
    · simp [he] at h
      subst h
      simpa [List.isEmpty_iff] using he

/-- `cases_for_bench` returns one case per feature set. -/
theorem cases_for_bench_length (b : BenchmarkSpec) (cargo : String) :
    ∀ (fs : List FeatureSet) (cs : List Case),
      cases_for_bench b cargo fs = .ok cs → cs.length = fs.length := by
  intro fs
  induction fs with
  | nil =>
    intro cs h
    simp only [cases_for_bench] at h
    cases h
    rfl
  | cons f rest ih =>
    intro cs h
    simp only [cases_for_bench] at h
    cases hc : make_case b f cargo with
    | error msg => rw [hc] at h; exact absurd h (by simp)
    | ok c =>
      rw [hc] at h
      cases hr : cases_for_bench b cargo rest with
      | error msg => rw [hr] at h; exact absurd h (by simp)
      | ok cs0 =>
        rw [hr] at h
        cases h
        simp [ih cs0 hr]

/-- `make_include` of a non-empty benchmark list and non-empty feature
set list never yields an empty case list. -/
theorem make_include_ne_nil (fs : List FeatureSet) (cargo : String)
    (hfs : fs ≠ []) (b : BenchmarkSpec) (bs : List BenchmarkSpec)
    (inc : List Case) (h : make_include fs cargo (b :: bs) = .ok inc) :
    inc ≠ [] := by
  simp only [make_include] at h
  cases hc : cases_for_bench b cargo fs with
  | error msg => rw [hc] at h; exact absurd h (by simp)
  | ok cs =>
    rw [hc] at h
    cases hr : make_include fs cargo bs with
    | error msg => rw [hr] at h; exact absurd h (by simp)
    | ok more =>
      rw [hr] at h
      cases h
      have hlen : cs.length = fs.length := cases_for_bench_length b cargo fs cs hc
      intro hnil
      rcases List.append_eq_nil.mp hnil with ⟨h1, _⟩
      apply hfs
      have : fs.length = 0 := by rw [← hlen, h1]; rfl
      exact List.length_eq_zero.mp this

/-- C9: if the final benchmark list is empty after reading the
configured benchmarks and, when enabled, auto-discovery, the expander
fails with the fatal no-benchmarks error (so it exits non-zero and no
matrix is written); and a successful run never produces an empty
matrix. -/
theorem empty_benchmarks_fatal (braw : List BenchEntry) (autoD : Bool)
    (rs_files : List String) (fraw : List FeatEntry) (cargo : String) :
    (∀ parsed, parse_benchmarks braw = Except.ok parsed →
      (if autoD && parsed.isEmpty then discover_benchmarks rs_files else parsed) = [] →
      expand_matrix_main braw autoD rs_files fraw cargo
        = Except.error no_benchmarks_msg)
    ∧ (∀ m, expand_matrix_main braw autoD rs_files fraw cargo = Except.ok m →
        m.cases ≠ []) := by
  constructor
  · intro parsed hp hempty
    rw [expand_matrix_main, hp]
    simp only [hempty, List.isEmpty_nil, if_pos]
  · intro m hm
    rw [expand_matrix_main] at hm
    cases hp : parse_benchmarks braw with
    | error msg => rw [hp] at hm; exact absurd hm (by simp)
    | ok parsed =>
      rw [hp] at hm
      simp only at hm
      set benchmarks :=
        if autoD && parsed.isEmpty then discover_benchmarks rs_files else parsed with hbdef
      by_cases hbe : benchmarks.isEmpty
      · rw [if_pos hbe] at hm
        exact absurd hm (by simp)
      · rw [if_neg hbe] at hm
        cases hn : normalize_feature_sets fraw with
        | error msg => rw [hn] at hm; exact absurd hm (by simp)
        | ok fs =>
          rw [hn] at hm
          have hfs : fs ≠ [] := normalize_feature_sets_ne_nil fraw fs hn
          simp only [make_matrix] at hm
          cases hi : make_include fs cargo benchmarks with
          | error msg => rw [hi] at hm; exact absurd hm (by simp)
          | ok inc =>
            rw [hi] at hm
            cases hm
            cases hb : benchmarks with
            | nil => rw [hb] at hbe; exact absurd rfl hbe
            | cons b bs =>
              rw [hb] at hi
              exact make_include_ne_nil fs cargo hfs b bs inc hi

/-- Witness for C9 at concrete inputs: no configured benchmarks,
auto-discovery enabled but finding nothing. -/
theorem empty_benchmarks_fatal_witness :
    expand_matrix_main [] true [] [] "" = Except.error no_benchmarks_msg :=
  (empty_benchmarks_fatal [] true [] [] "").1 [] rfl rfl

/-- Appending the NaN sentinel leaves an average unchanged (it is not a
finite value). -/
theorem avg_nan_cons (l : List FVal) : avg (FVal.nan :: l) = avg l := by
  simp [avg, List.filterMap_cons, FVal.finitePart]

/-- C10: for every comparison where a side errored and neither side is
missing — whatever metrics the non-erroring side carried into the
artifact — the runner reports the NaN delta sentinel, which classifies
as unknown, and the aggregator still counts the case in the group
tallies: the neutral count is incremented while improved, regressions
and the has-regressions flag are unchanged (the case is not excluded
the way missing cases are); the case contributes exactly its NaN delta
to the bench-delta list, and that NaN is excluded from the average, so
the bench-delta average is unchanged. -/
theorem error_case_counted_neutral (threshold : ℚ)
    (command head_sha base_sha bn fn : String) (head base : RunOutcome)
    (e : ComparisonResult) (es : List ComparisonResult)
    (herr : head.error = true ∨ base.error = true)
    (hm : e.head_missing = false) (bm : e.base_missing = false)
    (hd : e.delta_pct = FVal.nan) :
    (run_pair_main command head_sha base_sha bn fn head base).result.delta_pct
      = FVal.nan
    ∧ classify e.delta_pct threshold = ("⚪ unknown", false)
    ∧ (compute_feature_summary threshold (e :: es)).neutral
        = (compute_feature_summary threshold es).neutral + 1
    ∧ (compute_feature_summary threshold (e :: es)).improved
        = (compute_feature_summary threshold es).improved
    ∧ (compute_feature_summary threshold (e :: es)).regressions
        = (compute_feature_summary threshold es).regressions
    ∧ (compute_feature_summary threshold (e :: es)).has_regressions
        = (compute_feature_summary threshold es).has_regressions
    ∧ (summary_tally threshold (e :: es)).bench_deltas
        = FVal.nan :: (summary_tally threshold es).bench_deltas
    ∧ (compute_feature_summary threshold (e :: es)).avg_bench_delta
        = (compute_feature_summary threshold es).avg_bench_delta := by
  have hpref : List.isPrefixOf "🟢".toList "⚪ unknown".toList = false := by decide
  have hstep : summary_tally threshold (e :: es)
      = { summary_tally threshold es with
          neutral := (summary_tally threshold es).neutral + 1,
          bench_deltas := FVal.nan :: (summary_tally threshold es).bench_deltas,
          metric_deltas :=
            collect_metric_deltas e ++ (summary_tally threshold es).metric_deltas } := by
    simp [summary_tally, summary_step, hm, bm, hd, classify, hpref]
  refine ⟨?_, ?_, ?_, ?_, ?_, ?_, ?_, ?_⟩
  · rcases herr with h | h <;> simp [run_pair_main, h]
  · rw [hd]; rfl
  · simp [compute_feature_summary, hstep]
  · simp [compute_feature_summary, hstep]
  · simp [compute_feature_summary, hstep]
  · simp [compute_feature_summary, hstep]
  · rw [hstep]
  · simp [compute_feature_summary, hstep, avg_nan_cons]

/-- Witness for C10 at a concrete one-side-error case whose base side
carries non-empty metrics. -/
theorem error_case_counted_neutral_witness :
    (run_pair_main "c" "H" "B" "b" "f" head_outcome_error
        base_outcome_zero).result.delta_pct = FVal.nan
    ∧ classify entry_error_sample.delta_pct 3 = ("⚪ unknown", false)
    ∧ (compute_feature_summary 3 [entry_error_sample]).neutral
        = (compute_feature_summary 3 []).neutral + 1
    ∧ (compute_feature_summary 3 [entry_error_sample]).improved
        = (compute_feature_summary 3 []).improved
    ∧ (compute_feature_summary 3 [entry_error_sample]).regressions
        = (compute_feature_summary 3 []).regressions
    ∧ (compute_feature_summary 3 [entry_error_sample]).has_regressions
        = (compute_feature_summary 3 []).has_regressions
    ∧ (summary_tally 3 [entry_error_sample]).bench_deltas
        = FVal.nan :: (summary_tally 3 []).bench_deltas
    ∧ (compute_feature_summary 3 [entry_error_sample]).avg_bench_delta
        = (compute_feature_summary 3 []).avg_bench_delta :=
  error_case_counted_neutral 3 "c" "H" "B" "b" "f" head_outcome_error
    base_outcome_zero entry_error_sample [] (Or.inl rfl) rfl rfl rfl
